import Mathlib

/-!
Verification of the rule implementations of this repository (four ESLint-style
lint rules: `camelcase`, `new-parens`, `padded-blocks`, `valid-typeof`) against
their natural-language specification.

Strings are embedded as `List Char`.  The JavaScript regular expressions of
`camelcase` are embedded by unfolding their (anchored) matching semantics into
explicit `takeWhile` / `dropWhile` decompositions; each unfolding step is
documented at the definition it concerns.
-/

namespace Camelcase

/-- Character-level predicate used throughout the two `camelcase` regexes:
the underscore character class `[_]` (and its negation `[^_]`). -/
def isUnderscore (c : Char) : Bool := c == '_'

/-- Source (`src/lib/rules/camelcase.js`, line 51):
`var NON_SURROUNDING_UNDERSCORE = /^_*[^_]+(_+)(?!_*$)/g;`
applied via `NON_SURROUNDING_UNDERSCORE.test(name)`.

The regex is anchored at the start of the string, so a successful match
decomposes the input as `u ++ x ++ v ++ r` where
  - `u` matches `_*`: since the following `[^_]+` cannot start with an
    underscore, backtracking forces `u` to be exactly the maximal leading
    underscore run (`takeWhile isUnderscore`);
  - `x` matches `[^_]+`: a non-empty run of non-underscores; since the
    following `(_+)` must start with an underscore, `x` is forced to be the
    maximal non-underscore run after `u`;
  - `v` matches `(_+)`: a non-empty prefix of the underscore run after `x`;
  - the lookahead `(?!_*$)` requires the remainder `r` NOT to consist solely
    of underscores up to the end of the string.
Writing `w` for everything after `x` (so `w = v ++ r`), some choice of `v`
succeeds exactly when `w` contains a character that is not an underscore
(take `v` to be the whole leading underscore run of `w`; then `r` starts with
that non-underscore character or contains it).  Hence the test below. -/
def nonSurroundingUnderscoreTest (s : List Char) : Bool :=
  let t := s.dropWhile isUnderscore
  let x := t.takeWhile (fun c => !(isUnderscore c))
  let w := t.dropWhile (fun c => !(isUnderscore c))
  !x.isEmpty && w.any (fun c => !(isUnderscore c))

/-- Source (`camelcase.js`, lines 62-64): `name === name.toUpperCase()`.
`Char.toUpper` agrees with JavaScript `toUpperCase` on the ASCII range; the
rule's own source notes its lack of support beyond that
(`// TODO: Surrogate pair support`). -/
def isUpperCase (s : List Char) : Bool := s == s.map Char.toUpper

/-- Source (`camelcase.js`, lines 86-89):
`NON_SURROUNDING_UNDERSCORE.test(name) && !isUpperCase(name)`. -/
def isSnakeCase (s : List Char) : Bool :=
  nonSurroundingUnderscoreTest s && !(isUpperCase s)

/-- Source (`camelcase.js`, lines 54 and 97-101):
`var SNAKE_LETTER = /^(_*[^_]+)_+(.)(?:(?!_*$)|$)/g;` and
`name.replace(SNAKE_LETTER, function (_, prefix, letter) { return prefix + letter.toUpperCase(); })`.

Although the regex carries the `g` flag, it is anchored by `^` (without the
`m` flag), so after the first match no later position can match and
`String.prototype.replace` rewrites at most the first match.  The match
decomposes the input as `u ++ x ++ v ++ [c] ++ rest` where `u = _*` and
`x = [^_]+` are forced to the maximal leading underscore run and the maximal
following non-underscore run exactly as for `NON_SURROUNDING_UNDERSCORE`;
`v` matches `_+` greedily inside the maximal underscore run `vfull` after
`x` (backtracking tries the longest `v` first); `c` is the single character
captured by `(.)`; and the suffix `rest2` after `c` must satisfy
`(?:(?!_*$)|$)`, i.e. either not consist solely of underscores, or be empty.
Backtracking order therefore gives:
  - first attempt `v = vfull`, so `c` is the first character after the
    underscore run (it exists iff the run is not at the very end and is then
    a non-underscore); this succeeds iff the suffix after `c` is empty or
    contains a non-underscore;
  - otherwise, if `vfull` has length at least 2, attempt `v` = all but the
    last underscore of the run, so `c` is that last underscore and the
    suffix is everything after the run; the suffix is then either empty
    (group alternative `$` succeeds) or starts with a non-underscore
    (the lookahead succeeds), so this always matches — with the bizarre
    effect of "uppercasing" an underscore, i.e. shortening the run by one;
  - otherwise there is no match and the string is returned unchanged.
The replacement substitutes the match `u ++ x ++ v ++ [c]` by
`prefix + letter.toUpperCase() = u ++ x ++ [c.toUpper]`. -/
def snakeToCamelCase (s : List Char) : List Char :=
  let u := s.takeWhile isUnderscore
  let t := s.dropWhile isUnderscore
  let x := t.takeWhile (fun c => !(isUnderscore c))
  let w := t.dropWhile (fun c => !(isUnderscore c))
  let vfull := w.takeWhile isUnderscore
  let rest := w.dropWhile isUnderscore
  if x.isEmpty || vfull.isEmpty then s
  else
    match rest with
    | [] => if 2 ≤ vfull.length then u ++ x ++ ['_'] else s
    | c :: rest2 =>
      if rest2.isEmpty || rest2.any (fun d => !(isUnderscore d)) then
        u ++ x ++ [c.toUpper] ++ rest2
      else if 2 ≤ vfull.length then u ++ x ++ ['_'] ++ rest
      else s

/-- Spec wording for the snake-case pattern (spec §4.2 step 1): the name
contains "an underscore that separates two non-underscore segments". -/
def separatesTwoSegments (s : List Char) : Prop :=
  ∃ a b, s = a ++ '_' :: b ∧ (∃ c ∈ a, c ≠ '_') ∧ (∃ c ∈ b, c ≠ '_')

/-- Helper: the part of `nonSurroundingUnderscoreTest` that inspects
everything after the first non-underscore run. -/
def hAux (s : List Char) : Bool :=
  (s.dropWhile (fun c => !(isUnderscore c))).any (fun c => !(isUnderscore c))

/-- Helper: some underscore in `s` is (eventually) followed by a
non-underscore character. -/
def underscoreThenNonUnderscore (s : List Char) : Prop :=
  ∃ a b, s = a ++ '_' :: b ∧ ∃ c ∈ b, c ≠ '_'

theorem hAux_iff (s : List Char) : hAux s = true ↔ underscoreThenNonUnderscore s := by
  induction s with
  | nil => simp [hAux, underscoreThenNonUnderscore]
  | cons c s ih =>
    by_cases hc : c = '_'
    · subst hc
      have h1 : hAux ('_' :: s) = s.any (fun d => !(isUnderscore d)) := by
        simp [hAux, isUnderscore]
      rw [h1]
      constructor
      · intro h
        rw [List.any_eq_true] at h
        obtain ⟨d, hd, hdp⟩ := h
        refine ⟨[], s, rfl, d, hd, ?_⟩
        simpa [isUnderscore] using hdp
      · rintro ⟨a, b, hsplit, d, hd, hdne⟩
        rw [List.any_eq_true]
        refine ⟨d, ?_, by simp [isUnderscore, hdne]⟩
        cases a with
        | nil =>
          simp only [List.nil_append, List.cons.injEq] at hsplit
          exact hsplit.2 ▸ hd
        | cons a0 a' =>
          simp only [List.cons_append, List.cons.injEq] at hsplit
          rw [hsplit.2]
          exact List.mem_append.mpr (Or.inr (List.mem_cons_of_mem _ hd))
    · have hc' : isUnderscore c = false := by simp [isUnderscore, hc]
      have h1 : hAux (c :: s) = hAux s := by
        simp [hAux, hc']
      rw [h1, ih]
      unfold underscoreThenNonUnderscore
      constructor
      · rintro ⟨a, b, hsplit, hw⟩
        exact ⟨c :: a, b, by rw [hsplit]; rfl, hw⟩
      · rintro ⟨a, b, hsplit, hw⟩
        cases a with
        | nil =>
          simp only [List.nil_append, List.cons.injEq] at hsplit
          exact absurd hsplit.1 hc
        | cons a0 a' =>
          simp only [List.cons_append, List.cons.injEq] at hsplit
          exact ⟨a', b, hsplit.2, hw⟩

theorem nonSurroundingUnderscore_iff (s : List Char) :
    nonSurroundingUnderscoreTest s = true ↔ separatesTwoSegments s := by
  induction s with
  | nil => simp [nonSurroundingUnderscoreTest, separatesTwoSegments]
  | cons c s ih =>
    by_cases hc : c = '_'
    · subst hc
      have h1 : nonSurroundingUnderscoreTest ('_' :: s) = nonSurroundingUnderscoreTest s := by
        simp [nonSurroundingUnderscoreTest, isUnderscore]
      rw [h1, ih]
      unfold separatesTwoSegments
      constructor
      · rintro ⟨a, b, hsplit, ⟨d, hd, hdne⟩, hw2⟩
        exact ⟨'_' :: a, b, by rw [hsplit]; rfl, ⟨d, List.mem_cons_of_mem _ hd, hdne⟩, hw2⟩
      · rintro ⟨a, b, hsplit, ⟨d, hd, hdne⟩, hw2⟩
        cases a with
        | nil => exact absurd hd (List.not_mem_nil d)
        | cons a0 a' =>
          simp only [List.cons_append, List.cons.injEq] at hsplit
          refine ⟨a', b, hsplit.2, ⟨d, ?_, hdne⟩, hw2⟩
          rcases List.mem_cons.mp hd with h | h
          · exact absurd (h.trans hsplit.1.symm) hdne
          · exact h
    · have hc' : isUnderscore c = false := by simp [isUnderscore, hc]
      have h1 : nonSurroundingUnderscoreTest (c :: s) = hAux s := by
        simp [nonSurroundingUnderscoreTest, hAux, hc']
      rw [h1, hAux_iff]
      unfold underscoreThenNonUnderscore separatesTwoSegments
      constructor
      · rintro ⟨a, b, hsplit, hw⟩
        exact ⟨c :: a, b, by rw [hsplit]; rfl, ⟨c, List.mem_cons_self _ _, hc⟩, hw⟩
      · rintro ⟨a, b, hsplit, hw1, hw2⟩
        cases a with
        | nil =>
          simp only [List.nil_append, List.cons.injEq] at hsplit
          exact absurd hsplit.1 hc
        | cons a0 a' =>
          simp only [List.cons_append, List.cons.injEq] at hsplit
          exact ⟨a', b, hsplit.2, hw2⟩

/-- Claim C1 (code bug).  Evaluation of `snakeToCamelCase` at the failing
input: only the FIRST interior underscore run is converted, because the
`g` flag of `SNAKE_LETTER` is defeated by the `^` anchor, so
`snakeToCamelCase("_foo_bar_baz_") = "_fooBar_baz_"`, not the claimed
`"_fooBarBaz_"`; on `"__x__y__"` it even captures an underscore as the
"letter", yielding `"__x_y__"` instead of the claimed `"__xY__"`.  The
first example of the claim, `foo_bar → fooBar`, does hold.  The code also
contradicts its own doc comment ("Should not affect strings that are not
snake_cased"): `"x__"` is not snake-cased yet is rewritten to `"x_"`. -/
theorem snakeToCamelCase_first_run_only :
    snakeToCamelCase "foo_bar".toList = "fooBar".toList ∧
    snakeToCamelCase "_foo_bar_baz_".toList = "_fooBar_baz_".toList ∧
    "_fooBar_baz_".toList ≠ "_fooBarBaz_".toList ∧
    snakeToCamelCase "__x__y__".toList = "__x_y__".toList ∧
    "__x_y__".toList ≠ "__xY__".toList ∧
    isSnakeCase "x__".toList = false ∧
    snakeToCamelCase "x__".toList = "x_".toList := by
  refine ⟨by decide, by decide, by decide, by decide, by decide, by decide, by decide⟩

/-- Claim C2 (code bug).  The casing check re-flags the output of the fix:
`snakeToCamelCase("a_b_c") = "aB_c"` is still snake-cased, and
`snakeToCamelCase("x_y_") = "x_y_"` (unchanged — `SNAKE_LETTER` cannot match
when the interior run is followed by a letter and then only trailing
underscores) is still snake-cased.  So `isSnakeCase(snakeToCamelCase(s))` is
not false for every `s`, contradicting the claimed idempotence. -/
theorem snakeToCamelCase_output_reflagged :
    snakeToCamelCase "a_b_c".toList = "aB_c".toList ∧
    isSnakeCase (snakeToCamelCase "a_b_c".toList) = true ∧
    snakeToCamelCase "x_y_".toList = "x_y_".toList ∧
    isSnakeCase (snakeToCamelCase "x_y_".toList) = true := by
  refine ⟨by decide, by decide, by decide, by decide⟩

/-- Claim C3 (confirmed).  `isSnakeCase(s)` holds exactly when `s` contains
an underscore that separates two non-underscore segments (the spec's reading
of `/^_*[^_]+(_+)(?!_*$)/`) and `s` is not entirely upper-case; and the
concrete truth table of the spec holds: false on
`_x, _x_, x_, __x, x__, __x__` and true on
`x_y, _x_y, _x_y_, __x__y__, x_y_, x_y__, x__y__`. -/
theorem isSnakeCase_spec :
    (∀ s : List Char,
      isSnakeCase s = true ↔ (separatesTwoSegments s ∧ isUpperCase s = false)) ∧
    ([ "_x", "_x_", "x_", "__x", "x__", "__x__" ].all
        (fun s => isSnakeCase s.toList == false) = true) ∧
    ([ "x_y", "_x_y", "_x_y_", "__x__y__", "x_y_", "x_y__", "x__y__" ].all
        (fun s => isSnakeCase s.toList == true) = true) := by
  refine ⟨?_, by decide, by decide⟩
  intro s
  rw [show isSnakeCase s = (nonSurroundingUnderscoreTest s && !(isUpperCase s)) from rfl]
  rw [Bool.and_eq_true, nonSurroundingUnderscore_iff]
  simp

/-- The fields of an `Identifier` node (and of its surroundings) that the
`camelcase` rule's `Identifier` callback reads (`camelcase.js`, lines
127-193).  `gpTyp` is `node.parent.parent.type` (the code's
`effectiveParent.type`, also read in the `Property` branch);
`hasGrandparent` is the truthiness of `node.parent.parent`;
`keyIsNode` / `valueIsNode` are `node.parent.key === node` /
`node.parent.value === node`. -/
structure IdCtx where
  name : List Char
  parentTyp : String
  objTyp : String
  objName : List Char
  gpTyp : String
  hasGrandparent : Bool
  epRightTyp : String
  epLeftTyp : String
  epLeftPropName : List Char
  keyIsNode : Bool
  valueIsNode : Bool
deriving DecidableEq

/-- The report object built at `camelcase.js` lines 184-192: the flagged
name and the replacement text of the attached fix
(`fixer.replaceText(node, snakeToCamelCase(node.name))`). -/
structure CCReport where
  name : List Char
  fixText : List Char
deriving DecidableEq

/-- Source (`camelcase.js`, lines 127-193): the rule's `Identifier` visit
callback.  Returns the report passed to the rule's `report` helper, or
`none` when the callback returns without reporting. -/
def identifierCb (properties : String) (node : IdCtx) : Option CCReport :=
  if !(isSnakeCase node.name) then none
  else
    let isReference0 := node.parentTyp == "CallExpression"
    let isReference :=
      if properties != "never" then
        if node.parentTyp == "MemberExpression" then
          if node.objTyp == "Identifier" && node.objName == node.name then
            false
          else if node.gpTyp == "AssignmentExpression" &&
              (node.epRightTyp != "MemberExpression" ||
               (node.epLeftTyp == "MemberExpression" && node.epLeftPropName == node.name)) then
            false
          else true
        else if node.parentTyp == "Property" then
          if node.hasGrandparent && node.gpTyp == "ObjectPattern" &&
              node.keyIsNode && !node.valueIsNode then
            true
          else isReference0
        else isReference0
      else isReference0
    if isReference then none
    else some { name := node.name, fixText := snakeToCamelCase node.name }

/-- The property node of the member expression `a_b.a_b;`: its parent is the
`MemberExpression`, whose object is a DIFFERENT `Identifier` node that
happens to bear the same name; the enclosing expression is an
`ExpressionStatement`. -/
def propertySameNameNode : IdCtx :=
  { name := "a_b".toList, parentTyp := "MemberExpression",
    objTyp := "Identifier", objName := "a_b".toList,
    gpTyp := "ExpressionStatement", hasGrandparent := true,
    epRightTyp := "ExpressionStatement", epLeftTyp := "ExpressionStatement",
    epLeftPropName := [], keyIsNode := false, valueIsNode := false }

/-- Claim C7, counterexample.  The `camelcase` rule DOES report the property
node of `a_b.a_b` under the default configuration: the guard
`node.parent.object.type === "Identifier" && node.parent.object.name ===
node.name` compares names, not node identity, so it also fires when the node
in the property position merely shares the object's name. -/
theorem camelcase_property_same_name_cex :
    identifierCb "always" propertySameNameNode =
      some { name := "a_b".toList, fixText := "aB".toList } := by
  decide

/-- Claim C7, amended.  With `properties ≠ "never"`, an identifier in the
property position of a `MemberExpression` whose enclosing expression is not
an `AssignmentExpression` is not reported — UNLESS the member expression's
object is an `Identifier` bearing the same name as the node (then the
object-name guard fires and the node IS reported, as the counterexample
shows). -/
theorem camelcase_property_not_reported (properties : String) (node : IdCtx)
    (h1 : properties ≠ "never") (h2 : node.parentTyp = "MemberExpression")
    (h3 : node.gpTyp ≠ "AssignmentExpression")
    (h4 : ¬(node.objTyp = "Identifier" ∧ node.objName = node.name)) :
    identifierCb properties node = none := by
  unfold identifierCb
  have hne : (properties != "never") = true := by simp [bne_iff_ne, h1]
  have hmem : (node.parentTyp == "MemberExpression") = true := by simp [h2]
  have hgp : (node.gpTyp == "AssignmentExpression") = false := by simp [h3]
  have hobj : (node.objTyp == "Identifier" && node.objName == node.name) = false := by
    by_cases ho : node.objTyp = "Identifier"
    · have hne2 : node.objName ≠ node.name := fun he => h4 ⟨ho, he⟩
      simp [ho, hne2]
    · simp [ho]
  simp only [hne, hmem, hgp, hobj, if_true, if_false, Bool.false_and]
  split <;> simp

/-- Claim C7, witness: the property node of `x.a_b;` (object name differs)
is not reported. -/
theorem camelcase_property_not_reported_witness :
    identifierCb "always"
      { name := "a_b".toList, parentTyp := "MemberExpression",
        objTyp := "Identifier", objName := "x".toList,
        gpTyp := "ExpressionStatement", hasGrandparent := true,
        epRightTyp := "ExpressionStatement", epLeftTyp := "ExpressionStatement",
        epLeftPropName := [], keyIsNode := false, valueIsNode := false } = none :=
  camelcase_property_not_reported "always" _ (by decide) rfl (by decide) (by decide)

/-- Source (`camelcase.js`, lines 109-116): the rule-instance's `report`
helper with its `reported` node list.  AST nodes are addressed by a stable
identifier (spec §9); `reported.indexOf(obj.node) !== -1` is identity
membership.  The pair is (reported list, accumulated report output). -/
def reportDedup (reported : List Nat) (out : List Nat) (nodeId : Nat) :
    List Nat × List Nat :=
  if nodeId ∈ reported then (reported, out)
  else (reported ++ [nodeId], out ++ [nodeId])

/-- Running a whole traversal's sequence of `report` calls against a fresh
rule instance (`reported` starts empty). -/
def processReports (calls : List Nat) : List Nat × List Nat :=
  calls.foldl (fun st nodeId => reportDedup st.1 st.2 nodeId) ([], [])

theorem processReports_invariant (calls : List Nat) (r o : List Nat)
    (hro : r = o) (hnd : o.Nodup) :
    (calls.foldl (fun st nodeId => reportDedup st.1 st.2 nodeId) (r, o)).1 =
      (calls.foldl (fun st nodeId => reportDedup st.1 st.2 nodeId) (r, o)).2 ∧
    (calls.foldl (fun st nodeId => reportDedup st.1 st.2 nodeId) (r, o)).2.Nodup := by
  induction calls generalizing r o with
  | nil => exact ⟨hro, hnd⟩
  | cons c rest ih =>
    subst hro
    simp only [List.foldl_cons]
    unfold reportDedup
    by_cases hc : c ∈ r
    · simpa [hc] using ih r r rfl hnd
    · have hnd2 : (r ++ [c]).Nodup := by
        rw [List.nodup_append]
        refine ⟨hnd, List.nodup_singleton c, ?_⟩
        intro a ha hb
        rw [List.mem_singleton] at hb
        exact hc (hb ▸ ha)
      simpa [hc] using ih (r ++ [c]) (r ++ [c]) rfl hnd2

/-- Claim C8 (confirmed).  The rule's `report` helper appends nothing for a
node already in the `reported` set; consequently one traversal's output
contains each node at most once (`Nodup`), and in particular the
destructuring-shorthand scenario — the same node reported twice — yields
exactly one output report. -/
theorem camelcase_report_dedup :
    (∀ (reported out : List Nat) (nodeId : Nat), nodeId ∈ reported →
      reportDedup reported out nodeId = (reported, out)) ∧
    (∀ calls : List Nat, (processReports calls).2.Nodup) ∧
    processReports [5, 5] = ([5], [5]) := by
  refine ⟨?_, ?_, by decide⟩
  · intro reported out nodeId h
    simp [reportDedup, h]
  · intro calls
    exact (processReports_invariant calls [] [] rfl List.nodup_nil).2

/-- Claim C8, witness: a second `report` call on node `5` appends nothing. -/
theorem camelcase_report_dedup_witness :
    5 ∈ [5] ∧ reportDedup [5] [5] 5 = ([5], [5]) :=
  ⟨by decide, camelcase_report_dedup.1 [5] [5] 5 (by decide)⟩

end Camelcase

/-- A lexical token (or comment) as the rules observe it: its `type` string,
its source text `value`, and its `loc` line/column extent. -/
structure Token where
  typ : String
  value : String
  startLine : Nat
  startCol : Nat
  endLine : Nat
  endCol : Nat
deriving DecidableEq

namespace NewParens

/-- What the `new-parens` rule reads from a `NewExpression` node:
`node.range[1]` (for `insertTextAfter`) and `sourceCode.getTokens(node)`
(the node's own token span). -/
structure NPNode where
  rangeEnd : Nat
  tokens : List Token
deriving DecidableEq

/-- A text-edit descriptor (half-open range into the original source). -/
structure Fix where
  rangeStart : Nat
  rangeEnd : Nat
  text : List Char
deriving DecidableEq

structure NPReport where
  fix : Fix
deriving DecidableEq

/-- `fixer.insertTextAfter(node, text)`: a zero-width replacement at the
node's end offset. -/
def insertTextAfter (node : NPNode) (text : List Char) : Fix :=
  { rangeStart := node.rangeEnd, rangeEnd := node.rangeEnd, text := text }

/-- Applying a fix descriptor to the original source text. -/
def applyFix (src : List Char) (f : Fix) : List Char :=
  src.take f.rangeStart ++ f.text ++ src.drop f.rangeEnd

/-- Source (`new-parens.js`, lines 46-60): the `NewExpression` callback.
`parens` is `tokens.some(isValue("(")) && tokens.some(isValue(")"))`; when
`!parens` a report with fix `insertTextAfter(node, "()")` is emitted. -/
def newExpressionCb (node : NPNode) : List NPReport :=
  let parens := (node.tokens.any fun t => t.value == "(") &&
                (node.tokens.any fun t => t.value == ")")
  if !parens then [ { fix := insertTextAfter node "()".toList } ] else []

/-- Token helper for the concrete examples (lines/columns are irrelevant to
this rule). -/
def tok (ty v : String) : Token :=
  { typ := ty, value := v, startLine := 1, startCol := 0, endLine := 1, endCol := 0 }

/-- `new Foo` parsed from the source text `"new Foo"`. -/
def newFooNode : NPNode :=
  { rangeEnd := 7, tokens := [tok "Keyword" "new", tok "Identifier" "Foo"] }

/-- `new Foo()`. -/
def newFooParensNode : NPNode :=
  { rangeEnd := 9,
    tokens := [tok "Keyword" "new", tok "Identifier" "Foo",
               tok "Punctuator" "(", tok "Punctuator" ")"] }

/-- `new Foo(1)`. -/
def newFoo1Node : NPNode :=
  { rangeEnd := 10,
    tokens := [tok "Keyword" "new", tok "Identifier" "Foo",
               tok "Punctuator" "(", tok "Numeric" "1", tok "Punctuator" ")"] }

/-- Claim C5 (confirmed).  For token spans in which `(` and `)` occur
together or not at all (every parsed `NewExpression` has balanced
parentheses in its span), the rule reports exactly when the span contains
neither, and the attached fix inserts the literal text `()` at the node's
end.  Concretely, `new Foo` is flagged and its fix rewrites the source to
`new Foo()`, while `new Foo()` and `new Foo(1)` are not flagged. -/
theorem newParens_spec :
    (∀ node : NPNode,
      (node.tokens.any fun t => t.value == "(") =
        (node.tokens.any fun t => t.value == ")") →
      ((newExpressionCb node ≠ [] ↔
          ((node.tokens.any fun t => t.value == "(") = false ∧
           (node.tokens.any fun t => t.value == ")") = false)) ∧
       newExpressionCb node =
         if (node.tokens.any fun t => t.value == "(") = false then
           [ { fix := { rangeStart := node.rangeEnd, rangeEnd := node.rangeEnd,
                        text := "()".toList } } ]
         else [])) ∧
    (newExpressionCb newFooNode =
       [ { fix := { rangeStart := 7, rangeEnd := 7, text := "()".toList } } ] ∧
     applyFix "new Foo".toList
       { rangeStart := 7, rangeEnd := 7, text := "()".toList } = "new Foo()".toList ∧
     newExpressionCb newFooParensNode = [] ∧
     newExpressionCb newFoo1Node = []) := by
  refine ⟨?_, by decide, by decide, by decide, by decide⟩
  intro node h
  cases ha : (node.tokens.any fun t => t.value == "(") with
  | false =>
    rw [ha] at h
    simp [newExpressionCb, insertTextAfter, ha, ← h]
  | true =>
    rw [ha] at h
    simp [newExpressionCb, ha, ← h]

/-- Claim C5, witness: the balance hypothesis holds for `new Foo` and the
theorem then yields the report with the `()` insertion. -/
theorem newParens_spec_witness :
    newExpressionCb newFooNode =
      [ { fix := { rangeStart := 7, rangeEnd := 7, text := "()".toList } } ] := by
  have h := (newParens_spec.1 newFooNode (by decide)).2
  rw [h]
  decide

end NewParens

namespace ValidTypeof

/-- The runtime value of a `Literal` node as compared by `indexOf` (strict
equality): either a string, or some non-string value (which never equals any
entry of a string list). -/
inductive LitVal
| str (s : String)
| nonString
deriving DecidableEq

/-- An operand of the enclosing binary expression. -/
inductive Operand
| literal (v : LitVal) (loc : Nat)
| nonLiteral
deriving DecidableEq

/-- What the `valid-typeof` rule reads: the unary node's `operator`, the
parent (`context.getAncestors().pop()`) with its `type` and `operator`, the
two operands, and which of them is the unary node itself. -/
structure TypeofNode where
  operator : String
  parentTyp : String
  parentOp : String
  nodeIsLeft : Bool
  left : Operand
  right : Operand
deriving DecidableEq

/-- The rule's options object; `allow` is validated by the schema to be an
array of strings when present. -/
structure TVOptions where
  allow : Option (List String)
deriving DecidableEq

/-- Source (`valid-typeof.js`, line 39). -/
def VALID_TYPES : List String :=
  ["symbol", "undefined", "object", "boolean", "number", "string", "function"]

/-- Source (`valid-typeof.js`, line 40). -/
def OPERATORS : List String := ["==", "===", "!=", "!=="]

/-- Source (`valid-typeof.js`, lines 42-44):
`context.options[0] && Array.isArray(context.options[0].allow) ? context.options[0].allow : []`. -/
def getCustomTypes (opts : Option TVOptions) : List String :=
  match opts with
  | some o =>
    match o.allow with
    | some l => l
    | none => []
  | none => []

/-- `l.indexOf(value) === -1` for a string list `l`. -/
def valueNotIn (v : LitVal) (l : List String) : Bool :=
  match v with
  | .str s => !(l.contains s)
  | .nonString => true

structure TVReport where
  loc : Nat
  message : String
  hasFix : Bool
deriving DecidableEq

/-- Source (`valid-typeof.js`, lines 52-72): the `UnaryExpression` callback.
`sibling` is `parent.left === node ? parent.right : parent.left`; the legacy
report call `context.report(sibling, "Invalid typeof comparison value")`
reports at the literal and carries no fix. -/
def unaryExpressionCb (customTypes : List String) (n : TypeofNode) : List TVReport :=
  if n.operator == "typeof" then
    if n.parentTyp == "BinaryExpression" && OPERATORS.contains n.parentOp then
      match (if n.nodeIsLeft then n.right else n.left) with
      | .literal v loc =>
        if valueNotIn v VALID_TYPES && valueNotIn v customTypes then
          [ { loc := loc, message := "Invalid typeof comparison value", hasFix := false } ]
        else []
      | .nonLiteral => []
    else []
  else []

/-- `typeof x === "strnig"` (the literal starts at offset 13). -/
def strnigNode : TypeofNode :=
  { operator := "typeof", parentTyp := "BinaryExpression", parentOp := "===",
    nodeIsLeft := true, left := .nonLiteral,
    right := .literal (.str "strnig") 13 }

/-- `typeof x === "string"`. -/
def stringNode : TypeofNode :=
  { operator := "typeof", parentTyp := "BinaryExpression", parentOp := "===",
    nodeIsLeft := true, left := .nonLiteral,
    right := .literal (.str "string") 13 }

/-- `typeof x === "bigint"`. -/
def bigintNode : TypeofNode :=
  { operator := "typeof", parentTyp := "BinaryExpression", parentOp := "===",
    nodeIsLeft := true, left := .nonLiteral,
    right := .literal (.str "bigint") 13 }

/-- Claim C6 (confirmed).  For a `typeof` unary expression that is a direct
operand of an `==`/`===`/`!=`/`!==` binary expression whose opposite operand
is a literal, a report is emitted at the literal's location exactly when the
literal's value is neither one of the seven canonical type-name strings nor
in the configured allow-list; no emitted report ever carries a fix; and
concretely `"strnig"` is flagged, `"string"` is not, and `"bigint"` is
flagged unless allow-listed. -/
theorem validTypeof_spec :
    (∀ (cts : List String) (n : TypeofNode) (v : LitVal) (loc : Nat),
      n.operator = "typeof" → n.parentTyp = "BinaryExpression" →
      OPERATORS.contains n.parentOp = true →
      (if n.nodeIsLeft then n.right else n.left) = .literal v loc →
      unaryExpressionCb cts n =
        if valueNotIn v VALID_TYPES && valueNotIn v cts then
          [ { loc := loc, message := "Invalid typeof comparison value", hasFix := false } ]
        else []) ∧
    (∀ (cts : List String) (n : TypeofNode) (r : TVReport),
      r ∈ unaryExpressionCb cts n → r.hasFix = false) ∧
    (unaryExpressionCb (getCustomTypes none) strnigNode =
       [ { loc := 13, message := "Invalid typeof comparison value", hasFix := false } ] ∧
     unaryExpressionCb (getCustomTypes none) stringNode = [] ∧
     unaryExpressionCb (getCustomTypes none) bigintNode =
       [ { loc := 13, message := "Invalid typeof comparison value", hasFix := false } ] ∧
     unaryExpressionCb (getCustomTypes (some { allow := some ["bigint"] })) bigintNode = []) := by
  refine ⟨?_, ?_, by decide, by decide, by decide, by decide⟩
  · intro cts n v loc h1 h2 h3 h4
    unfold unaryExpressionCb
    rw [h4]
    have h3m : n.parentOp ∈ OPERATORS := by simpa using h3
    simp [h1, h2, h3m]
  · intro cts n r hr
    unfold unaryExpressionCb at hr
    split at hr
    · split at hr
      · split at hr
        · split at hr
          · rw [List.mem_singleton] at hr
            rw [hr]
          · exact absurd hr (List.not_mem_nil r)
        · exact absurd hr (List.not_mem_nil r)
      · exact absurd hr (List.not_mem_nil r)
    · exact absurd hr (List.not_mem_nil r)

/-- Claim C6, witness: applying the characterization to
`typeof x === "strnig"` with an empty allow-list. -/
theorem validTypeof_spec_witness :
    unaryExpressionCb [] strnigNode =
      [ { loc := 13, message := "Invalid typeof comparison value", hasFix := false } ] := by
  have h := validTypeof_spec.1 [] strnigNode (.str "strnig") 13 rfl rfl (by decide) rfl
  rw [h]
  decide

end ValidTypeof

namespace PaddedBlocks

/-!
Embedding of the `padded-blocks` rule (the first copy in
`src/lib/rules/new-parens.js`, lines 65-285; the second copy, lines 286-584,
shares the option handling, the message construction — including `foundMsg`
computed from the TOP padding only — the report emission and the callback
registration modelled here, and differs only in its blank-line formula and
its fix builders).
-/

/-- Source (lines 151-153): a token is a comment when its type is `Line` or
`Block`. -/
def isComment (t : Token) : Bool := t.typ == "Line" || t.typ == "Block"

/-- The do/while walk of `getTokenPadding` (lines 172-180) over the stream of
tokens-or-comments adjacent to the start token, nearest first: keep stepping
while the adjacent token is a comment lying on the same line as the start
token.  `useStart` selects the adjacent token's `loc.start.line` (forwards,
`dir === 1`) versus `loc.end.line` (backwards).  `none` models the stream
running out (the JS code would dereference `null`). -/
def findAdjacent (tokenLine : Nat) (useStart : Bool) (stream : List Token) : Option Token :=
  match stream with
  | [] => none
  | t :: rest =>
    let adjLine := if useStart then t.startLine else t.endLine
    if adjLine == tokenLine && isComment t then findAdjacent tokenLine useStart rest
    else some t

/-- Source (lines 161-186), `getTokenPadding(token, 1)` (forwards):
`tokenLine = token.loc.start.line`, `nonBlankLine =
adjacentToken.loc.start.line`, and
`blankLines = Math.abs(nonBlankLine - dir - tokenLine)`. -/
def getTokenPaddingFwd (token : Token) (stream : List Token) : Option Nat :=
  (findAdjacent token.startLine true stream).map
    (fun adj => ((adj.startLine : Int) - 1 - (token.startLine : Int)).natAbs)

/-- `getTokenPadding(token, -1)` (backwards): `tokenLine =
token.loc.end.line`, the loop compares the adjacent token's `loc.end.line`,
but `nonBlankLine` is still `adjacentToken.loc.start.line`, and
`blankLines = Math.abs(nonBlankLine + 1 - tokenLine)`. -/
def getTokenPaddingBwd (token : Token) (stream : List Token) : Option Nat :=
  (findAdjacent token.endLine false stream).map
    (fun adj => ((adj.startLine : Int) + 1 - (token.endLine : Int)).natAbs)

/-- Option 0 of the rule as validated by the schema (lines 84-108): either
one of the enum strings, or an object with optional `blocks` / `switches` /
`classes` members. -/
inductive PBConfig
| str (s : String)
| obj (blocks switches classes : Option String)
deriving DecidableEq

/-- The rule's internal `options` object: each member is either unset
(`hasOwnProperty` false) or a boolean. -/
structure PBOptions where
  blocks : Option Bool
  switches : Option Bool
  classes : Option Bool
deriving DecidableEq

/-- Line 113, `context.options[0] || "always"`: the default applies when
option 0 is absent (or is the falsy string `""`, which the schema would
reject before the rule runs). -/
def configOrDefault (cfg : Option PBConfig) : PBConfig :=
  match cfg with
  | none => .str "always"
  | some (.str s) => if s == "" then .str "always" else .str s
  | some c => c

/-- Lines 115-127: a string config sets only `blocks`; an object config sets
exactly the members it owns, each to `value === "always"`. -/
def computeOptions (cfg : Option PBConfig) : PBOptions :=
  match configOrDefault cfg with
  | .str s => { blocks := some (s == "always"), switches := none, classes := none }
  | .obj b sw cl =>
    { blocks := b.map (fun v => v == "always"),
      switches := sw.map (fun v => v == "always"),
      classes := cl.map (fun v => v == "always") }

/-- Lines 193-206: `requirePaddingFor(node)` reads the option member for the
node's type; the member itself may be `undefined` (the inner `Option`).  The
outer `none` models the `throw new Error("unreachable")` on an unexpected
node type. -/
def requirePaddingFor (opts : PBOptions) (typ : String) : Option (Option Bool) :=
  if typ == "BlockStatement" then some opts.blocks
  else if typ == "SwitchStatement" then some opts.switches
  else if typ == "ClassBody" then some opts.classes
  else none

/-- JavaScript truthiness of a possibly-`undefined` boolean. -/
def truthy (v : Option Bool) : Bool := v.getD false

/-- Line 129. -/
def ALWAYS_MESSAGE : String := "Block must be padded by blank lines."

/-- Line 130. -/
def NEVER_MESSAGE : String := "Block must not be padded by blank lines."

/-- A report of this rule: the explicit `loc` passed to `context.report`
and the message. -/
structure PBReport where
  line : Int
  column : Int
  message : String
deriving DecidableEq

/-- What a checked node provides through the source accessor:
  - `len`: `node.cases.length` (switch) or `node.body.length`, tested by the
    registered callbacks;
  - `openBrace`: the result of `getOpenBrace(node)` (lines 139-144) — for a
    `SwitchStatement` this is `sourceCode.getTokenBefore(node.cases[0])`,
    and `none` models the lookup being impossible (in particular the
    out-of-bounds `cases[0]` when the case list is empty);
  - `closeBrace`: `sourceCode.getLastToken(node)`;
  - `afterOpen` / `beforeClose`: the token-or-comment streams after the open
    brace and before the close brace, nearest first. -/
structure PBNode where
  typ : String
  len : Nat
  openBrace : Option Token
  closeBrace : Token
  afterOpen : List Token
  beforeClose : List Token

/-- Source (lines 213-252): `checkPadding(node)`.  Note that `foundMsg` is
computed from `blockTopPadding` alone (line 218) and appended to BOTH the
top and the bottom "never" messages.  `none` propagates a token-stream
dereference failure. -/
def checkPadding (opts : PBOptions) (node : PBNode) : Option (List PBReport) :=
  node.openBrace.bind fun openBrace =>
  let closeBrace := node.closeBrace
  (getTokenPaddingFwd openBrace node.afterOpen).bind fun blockTopPadding =>
  (getTokenPaddingBwd closeBrace node.beforeClose).bind fun blockBottomPadding =>
  let foundMsg := if 1 < blockTopPadding then
      " (" ++ toString blockTopPadding ++ " blank lines found)" else ""
  (requirePaddingFor opts node.typ).bind fun req =>
  if truthy req then
    some ((if blockTopPadding == 0 then
            [ { line := (openBrace.startLine : Int), column := (openBrace.startCol : Int),
                message := ALWAYS_MESSAGE } ] else []) ++
          (if blockBottomPadding == 0 then
            [ { line := (closeBrace.endLine : Int), column := (closeBrace.endCol : Int) - 1,
                message := ALWAYS_MESSAGE } ] else []))
  else
    some ((if blockTopPadding != 0 then
            [ { line := (openBrace.startLine : Int) + 1, column := 0,
                message := NEVER_MESSAGE ++ foundMsg } ] else []) ++
          (if blockBottomPadding != 0 then
            [ { line := (closeBrace.endLine : Int) - 1, column := 0,
                message := NEVER_MESSAGE ++ foundMsg } ] else []))

/-- The rule object returned by `create`: one optional visit callback per
node type. -/
structure PBRule where
  SwitchStatement : Option (PBNode → Option (List PBReport))
  BlockStatement : Option (PBNode → Option (List PBReport))
  ClassBody : Option (PBNode → Option (List PBReport))

/-- Source (lines 111-284): `create(context)` computes the options and
registers a callback for each owned option member; each callback returns
without reporting when the node's case list / body is empty. -/
def create (cfg : Option PBConfig) : PBRule :=
  let options := computeOptions cfg
  { SwitchStatement :=
      if options.switches.isSome then
        some (fun node => if node.len == 0 then some [] else checkPadding options node)
      else none,
    BlockStatement :=
      if options.blocks.isSome then
        some (fun node => if node.len == 0 then some [] else checkPadding options node)
      else none,
    ClassBody :=
      if options.classes.isSome then
        some (fun node => if node.len == 0 then some [] else checkPadding options node)
      else none }

/-- Open brace `\x7b` at line 1, column 0. -/
def braceOpenTok : Token :=
  { typ := "Punctuator", value := "\x7b", startLine := 1, startCol := 0,
    endLine := 1, endCol := 1 }

/-- A statement token on line 2. -/
def contentTok2 : Token :=
  { typ := "Identifier", value := "x", startLine := 2, startCol := 4,
    endLine := 2, endCol := 5 }

/-- A statement token on line 4. -/
def contentTok4 : Token :=
  { typ := "Identifier", value := "x", startLine := 4, startCol := 4,
    endLine := 4, endCol := 5 }

/-- Close brace `\x7d` at line 3. -/
def braceCloseTok3 : Token :=
  { typ := "Punctuator", value := "\x7d", startLine := 3, startCol := 0,
    endLine := 3, endCol := 1 }

/-- Close brace `\x7d` at line 5. -/
def braceCloseTok5 : Token :=
  { typ := "Punctuator", value := "\x7d", startLine := 5, startCol := 0,
    endLine := 5, endCol := 1 }

/-- A non-empty block whose body starts on the line right after the open
brace (top padding 0) but whose close brace sits three lines below the last
statement (bottom padding 2). -/
def cexNeverNode : PBNode :=
  { typ := "BlockStatement", len := 1, openBrace := some braceOpenTok,
    closeBrace := braceCloseTok5, afterOpen := [contentTok2],
    beforeClose := [contentTok2] }

/-- A non-empty block with two blank lines after the open brace (top padding
2) and none before the close brace (bottom padding 0). -/
def witNeverNode : PBNode :=
  { typ := "BlockStatement", len := 1, openBrace := some braceOpenTok,
    closeBrace := braceCloseTok5, afterOpen := [contentTok4],
    beforeClose := [contentTok4] }

/-- A non-empty block with no padding on either side. -/
def unpaddedNode : PBNode :=
  { typ := "BlockStatement", len := 1, openBrace := some braceOpenTok,
    closeBrace := braceCloseTok3, afterOpen := [contentTok2],
    beforeClose := [contentTok2] }

/-- An empty `SwitchStatement` (no cases), for which the `getOpenBrace`
lookup `getTokenBefore(node.cases[0])` cannot be performed. -/
def emptySwitchNode : PBNode :=
  { typ := "SwitchStatement", len := 0, openBrace := none,
    closeBrace := braceCloseTok3, afterOpen := [], beforeClose := [] }

/-- Claim C4, counterexample.  Under `{ blocks: "never" }`, a block with
bottom padding 2 and top padding 0 is reported on the bottom side, but the
message does not mention the count `2` at all: `foundMsg` is computed from
the TOP padding (here 0), so the bottom report's message is the bare
"must not be padded" text, contradicting "that side's report message
includes the blank-line count observed on that same side whenever that
count exceeds one". -/
theorem checkPadding_bottom_count_cex :
    checkPadding (computeOptions (some (.obj (some "never") none none))) cexNeverNode =
      some [ { line := 4, column := 0,
               message := "Block must not be padded by blank lines." } ] ∧
    getTokenPaddingBwd cexNeverNode.closeBrace cexNeverNode.beforeClose = some 2 ∧
    "Block must not be padded by blank lines.".toList.all (fun c => c != '2') = true := by
  refine ⟨by decide, by decide, by decide⟩

/-- Claim C4, amended.  Under a `never` configuration, each side with
nonzero blank-line padding gets a "must not be padded" report — but BOTH
sides' messages append the count observed on the TOP side (when the top
count exceeds one); the bottom side's own count never appears in a
message. -/
theorem checkPadding_never_reports (opts : PBOptions) (node : PBNode)
    (ob : Token) (top bottom : Nat) (req : Option Bool)
    (hob : node.openBrace = some ob)
    (htop : getTokenPaddingFwd ob node.afterOpen = some top)
    (hbot : getTokenPaddingBwd node.closeBrace node.beforeClose = some bottom)
    (hreq : requirePaddingFor opts node.typ = some req)
    (hnever : truthy req = false) :
    checkPadding opts node =
      some ((if top ≠ 0 then
              [ { line := (ob.startLine : Int) + 1, column := 0,
                  message := NEVER_MESSAGE ++
                    (if 1 < top then " (" ++ toString top ++ " blank lines found)"
                     else "") } ]
             else []) ++
            (if bottom ≠ 0 then
              [ { line := (node.closeBrace.endLine : Int) - 1, column := 0,
                  message := NEVER_MESSAGE ++
                    (if 1 < top then " (" ++ toString top ++ " blank lines found)"
                     else "") } ]
             else [])) := by
  unfold checkPadding
  rw [hob, Option.some_bind, htop, Option.some_bind, hbot, Option.some_bind,
    hreq, Option.some_bind, hnever]
  simp [bne_iff_ne]

/-- Claim C4, witness: under `{ blocks: "never" }`, a block with top padding
2 and bottom padding 0 yields exactly one report, on the top side, whose
message carries the count. -/
theorem checkPadding_never_reports_witness :
    checkPadding { blocks := some false, switches := none, classes := none } witNeverNode =
      some [ { line := 2, column := 0,
               message := "Block must not be padded by blank lines. (2 blank lines found)" } ] := by
  have h := checkPadding_never_reports
    { blocks := some false, switches := none, classes := none }
    witNeverNode braceOpenTok 2 0 (some false) rfl (by decide) (by decide) rfl rfl
  rw [h]
  decide

/-- Claim C9 (confirmed).  Every registered callback returns without any
report on a node whose case list / body is empty — for ANY node, including
one whose `getOpenBrace` token lookup could not even be performed
(`openBrace = none`): the emptiness guard returns before `checkPadding`
(and hence before `getOpenBrace`'s `cases[0]` access) is reached, so no
report and no out-of-bounds access happens. -/
theorem paddedBlocks_empty_no_report (cfg : Option PBConfig) (node : PBNode)
    (hlen : node.len = 0) :
    (∀ cb, (create cfg).SwitchStatement = some cb → cb node = some []) ∧
    (∀ cb, (create cfg).BlockStatement = some cb → cb node = some []) ∧
    (∀ cb, (create cfg).ClassBody = some cb → cb node = some []) := by
  refine ⟨?_, ?_, ?_⟩ <;>
  · intro cb hcb
    unfold create at hcb
    simp only at hcb
    split at hcb
    · rw [← Option.some.inj hcb]
      simp [hlen]
    · exact absurd hcb (by simp)

/-- Claim C9, witness: with `{ switches: "never" }`, the registered
`SwitchStatement` callback emits nothing on an empty switch whose open-brace
lookup is impossible. -/
theorem paddedBlocks_empty_no_report_witness :
    ((create (some (.obj none (some "never") none))).SwitchStatement).map
      (fun cb => cb emptySwitchNode) = some (some []) := by
  have h := (paddedBlocks_empty_no_report
    (some (.obj none (some "never") none)) emptySwitchNode rfl).1
  cases hc : (create (some (.obj none (some "never") none))).SwitchStatement with
  | none => simp [create, computeOptions, configOrDefault] at hc
  | some cb =>
    rw [Option.map_some']
    exact congrArg some (h cb hc)

/-- Claim C10 (confirmed).  With no configuration option, the rule behaves
exactly as the string configuration `"always"`: no `SwitchStatement` or
`ClassBody` callback is registered, and the registered `BlockStatement`
callback skips empty blocks and, on a non-empty block, requires padding on
both sides — it reports at the open brace exactly when the top padding is
zero and at the close brace exactly when the bottom padding is zero. -/
theorem paddedBlocks_default_config :
    create none = create (some (.str "always")) ∧
    (create none).SwitchStatement = none ∧
    (create none).ClassBody = none ∧
    ∃ f, (create none).BlockStatement = some f ∧
      (∀ node : PBNode, node.len = 0 → f node = some []) ∧
      (∀ (node : PBNode) (ob : Token) (top bottom : Nat),
        node.typ = "BlockStatement" → node.len ≠ 0 →
        node.openBrace = some ob →
        getTokenPaddingFwd ob node.afterOpen = some top →
        getTokenPaddingBwd node.closeBrace node.beforeClose = some bottom →
        f node =
          some ((if top = 0 then
                  [ { line := (ob.startLine : Int), column := (ob.startCol : Int),
                      message := ALWAYS_MESSAGE } ] else []) ++
                (if bottom = 0 then
                  [ { line := (node.closeBrace.endLine : Int),
                      column := (node.closeBrace.endCol : Int) - 1,
                      message := ALWAYS_MESSAGE } ] else []))) := by
  refine ⟨rfl, rfl, rfl, _, rfl, ?_, ?_⟩
  · intro node hlen
    simp [hlen]
  · intro node ob top bottom htyp hlen hob htop hbot
    have hlen' : (node.len == 0) = false := by simp [hlen]
    simp only [hlen', Bool.false_eq_true, if_false]
    unfold checkPadding
    rw [hob, Option.some_bind, htop, Option.some_bind, hbot, Option.some_bind, htyp]
    have hopts : computeOptions none =
        { blocks := some true, switches := none, classes := none } := by decide
    simp [requirePaddingFor, truthy, hopts]

/-- Claim C10, witness: with no option, a non-empty block padded on neither
side is flagged twice, at the open brace and at the close brace. -/
theorem paddedBlocks_default_config_witness :
    ((create none).BlockStatement).map (fun f => f unpaddedNode) =
      some (some [ { line := 1, column := 0,
                     message := "Block must be padded by blank lines." },
                   { line := 3, column := 0,
                     message := "Block must be padded by blank lines." } ]) := by
  obtain ⟨heq, hsw, hcl, f, hf, hempty, hchar⟩ := paddedBlocks_default_config
  rw [hf, Option.map_some']
  have h := hchar unpaddedNode braceOpenTok 0 0 rfl (by decide) rfl (by decide) (by decide)
  rw [h]
  decide

end PaddedBlocks
